import Mathlib

/- Verification of the use-watcher-form form controller
   (src/useWatcherForm.tsx and src/useField.tsx) over a shallow embedding
   of its state containers and operations. -/

set_option linter.unusedVariables false

mutual

/-- A JavaScript runtime value as the form library observes it: undefined,
null, strings, numbers, booleans and plain objects (field lists in
insertion order; JS guarantees keys are unique within one object). -/
inductive JVal where
  | vUndefined
  | vNull
  | vStr (s : String)
  | vNum (n : Int)
  | vBool (b : Bool)
  | vObj (fields : JFields)
deriving DecidableEq

/-- The field list of a JS object, in insertion order. -/
inductive JFields where
  | nil
  | cons (key : String) (val : JVal) (rest : JFields)
deriving DecidableEq

end

/-- JS truthiness: undefined, null, false, 0 and the empty string are falsy;
every other value, including any object, is truthy. -/
def truthy : JVal → Bool
  | .vUndefined => false
  | .vNull => false
  | .vStr s => s != ""
  | .vNum n => n != 0
  | .vBool b => b
  | .vObj _ => true

/-- Own-property lookup by key. -/
def JFields.lookup : JFields → String → Option JVal
  | .nil, _ => none
  | .cons k v rest, key => if k = key then some v else rest.lookup key

/-- Object.keys: the keys in insertion order. -/
def JFields.keys : JFields → List String
  | .nil => []
  | .cons k _ rest => k :: rest.keys

/-- Property assignment: overwrite in place when the key exists, append
otherwise (JS preserves insertion order on overwrite). -/
def JFields.set : JFields → String → JVal → JFields
  | .nil, key, v => .cons key v .nil
  | .cons k w rest, key, v =>
    if k = key then .cons key v rest else .cons k w (rest.set key v)

/-- Property deletion by key. -/
def JFields.remove : JFields → String → JFields
  | .nil, _ => .nil
  | .cons k w rest, key =>
    if k = key then rest.remove key else .cons k w (rest.remove key)

/-- How many field values satisfy p (used for
Object.keys(r).filter(key => r[key]).length with p the truthiness test;
JS keys are unique, so filtering keys and filtering fields agree). -/
def JFields.countP (p : JVal → Bool) : JFields → Nat
  | .nil => 0
  | .cons _ v rest => (if p v then 1 else 0) + rest.countP p

/-- Whether some field value satisfies p. -/
def JFields.anyP (p : JVal → Bool) : JFields → Bool
  | .nil => false
  | .cons _ v rest => p v || rest.anyP p

/-- Build a field list from a plain list of pairs (object literals). -/
def JFields.ofList : List (String × JVal) → JFields
  | [] => .nil
  | (k, v) :: rest => .cons k v (JFields.ofList rest)

/-- Object literal shorthand. -/
def jObj (l : List (String × JVal)) : JVal := .vObj (JFields.ofList l)

/-- Split a character list at the dot separators, JS split('.') style:
the empty input yields one empty segment, and every dot starts a new
segment, so adjacent, leading and trailing dots yield empty segments. -/
def splitCharsOnDot : List Char → List String
  | [] => [""]
  | c :: rest =>
    let r := splitCharsOnDot rest
    if c = '.' then "" :: r
    else
      match r with
      | [] => [String.mk [c]]
      | h :: t => String.mk (c :: h.data) :: t

/-- The dot-segmented form of a path, as produced by path.split('.') in JS
(never the empty list: splitting always yields at least one segment). -/
def pathSegs (path : String) : List String := splitCharsOnDot path.data

/-- Modelled from the spec: the external watcher primitive's get-at-path
(getDeepPath of the use-watcher-map dependency, which is not part of this
repository): walk the segments through nested objects, yielding undefined
as soon as a segment is missing or the current value is not an object. -/
def getDeepPath : JVal → List String → JVal
  | v, [] => v
  | .vObj fs, k :: rest =>
    match fs.lookup k with
    | some v => getDeepPath v rest
    | none => .vUndefined
  | _, _ :: _ => .vUndefined

/-- Modelled from the spec: the external watcher primitive's set-at-path —
write a value at a nested path, preserving sibling fields and key order and
creating fresh objects where the walked-through entry is missing or not an
object. -/
def setDeepPath : JVal → List String → JVal → JVal
  | _, [], v => v
  | .vObj fs, k :: rest, v =>
    let child := match fs.lookup k with
      | some c => c
      | none => .vObj .nil
    .vObj (fs.set k (setDeepPath child rest v))
  | _, k :: rest, v => .vObj (.cons k (setDeepPath (.vObj .nil) rest v) .nil)

/-- Modelled from the spec: the external watcher primitive's clear-at-path —
remove the entry at a nested path and leave the rest of the tree unchanged.
The library's extra boolean argument prunes emptied parents; pruning is
unobservable to the properties below and is not modelled. -/
def clearDeepPath : JVal → List String → JVal
  | v, [] => v
  | .vObj fs, [k] => .vObj (fs.remove k)
  | .vObj fs, k :: k2 :: rest =>
    match fs.lookup k with
    | some c => .vObj (fs.set k (clearDeepPath c (k2 :: rest)))
    | none => .vObj fs
  | v, _ :: _ => v

/-- Structural induction over a field list alone (the mutual recursion with
values never descends into a field's value here). -/
def JFields.inductionOn {motive : JFields → Prop} (h0 : motive .nil)
    (h1 : ∀ k v rest, motive rest → motive (.cons k v rest)) :
    ∀ fs, motive fs
  | .nil => h0
  | .cons k v rest => h1 k v rest (JFields.inductionOn h0 h1 rest)

theorem JFields.lookup_set (fs : JFields) (k : String) (v : JVal) :
    (fs.set k v).lookup k = some v := by
  induction fs using JFields.inductionOn with
  | h0 => simp [JFields.set, JFields.lookup]
  | h1 k' w rest ih =>
    by_cases h : k' = k
    · simp [JFields.set, h, JFields.lookup]
    · simp [JFields.set, h, JFields.lookup, ih]

theorem JFields.lookup_remove (fs : JFields) (k : String) :
    (fs.remove k).lookup k = none := by
  induction fs using JFields.inductionOn with
  | h0 => simp [JFields.remove, JFields.lookup]
  | h1 k' w rest ih =>
    by_cases h : k' = k
    · simp [JFields.remove, h, ih]
    · simp [JFields.remove, h, JFields.lookup, ih]

/-- Reading back a freshly written path yields the written value. -/
theorem getDeepPath_setDeepPath (segs : List String) (t v : JVal) :
    getDeepPath (setDeepPath t segs v) segs = v := by
  induction segs generalizing t with
  | nil => simp [setDeepPath, getDeepPath]
  | cons k rest ih =>
    cases t with
    | vObj fs =>
      simp only [setDeepPath, getDeepPath, JFields.lookup_set]
      exact ih _
    | vUndefined => simp only [setDeepPath, getDeepPath, JFields.lookup]; simp [ih]
    | vNull => simp only [setDeepPath, getDeepPath, JFields.lookup]; simp [ih]
    | vStr s => simp only [setDeepPath, getDeepPath, JFields.lookup]; simp [ih]
    | vNum n => simp only [setDeepPath, getDeepPath, JFields.lookup]; simp [ih]
    | vBool b => simp only [setDeepPath, getDeepPath, JFields.lookup]; simp [ih]

/-- Reading back a freshly cleared path yields undefined. -/
theorem getDeepPath_clearDeepPath (segs : List String) (hne : segs ≠ []) (t : JVal) :
    getDeepPath (clearDeepPath t segs) segs = .vUndefined := by
  induction segs generalizing t with
  | nil => exact absurd rfl hne
  | cons k rest ih =>
    cases rest with
    | nil =>
      cases t with
      | vObj fs => simp [clearDeepPath, getDeepPath, JFields.lookup_remove]
      | vUndefined => simp [clearDeepPath, getDeepPath]
      | vNull => simp [clearDeepPath, getDeepPath]
      | vStr s => simp [clearDeepPath, getDeepPath]
      | vNum n => simp [clearDeepPath, getDeepPath]
      | vBool b => simp [clearDeepPath, getDeepPath]
    | cons k2 rest2 =>
      cases t with
      | vObj fs =>
        simp only [clearDeepPath]
        cases h : fs.lookup k with
        | some c =>
          simp only [getDeepPath, JFields.lookup_set]
          exact ih (by simp) _
        | none => simp [getDeepPath, h]
      | vUndefined => simp [clearDeepPath, getDeepPath]
      | vNull => simp [clearDeepPath, getDeepPath]
      | vStr s => simp [clearDeepPath, getDeepPath]
      | vNum n => simp [clearDeepPath, getDeepPath]
      | vBool b => simp [clearDeepPath, getDeepPath]

/-- A positive truthy-field count is the same as having a truthy field. -/
theorem JFields.countP_pos_iff_anyP (p : JVal → Bool) (fs : JFields) :
    0 < fs.countP p ↔ fs.anyP p = true := by
  induction fs using JFields.inductionOn with
  | h0 => simp [JFields.countP, JFields.anyP]
  | h1 k v rest ih =>
    by_cases h : p v = true
    · simp [JFields.countP, JFields.anyP, h]
    · simp only [Bool.not_eq_true] at h
      simp [JFields.countP, JFields.anyP, h, ih]

/-- Writing a flat key leaves exactly the old keys plus the written one. -/
theorem JFields.mem_keys_set (fs : JFields) (k a : String) (v : JVal) :
    a ∈ (fs.set k v).keys ↔ a = k ∨ a ∈ fs.keys := by
  induction fs using JFields.inductionOn with
  | h0 => simp [JFields.set, JFields.keys]
  | h1 k' w rest ih =>
    by_cases h : k' = k
    · subst h
      simp [JFields.set, JFields.keys]
    · simp only [JFields.set, h, if_neg, JFields.keys, List.mem_cons, ih, ite_false]
      tauto

/-- The synchronized state containers of one useWatcherForm instance: the
five path-addressed maps, the two primitive watchers, and the stored
baseline initialValuesCopy. -/
structure FormState where
  values : JVal
  changes : JVal
  errors : JVal
  keys : JVal
  touched : JVal
  isSubmitting : Bool
  formKey : Nat
  initialValuesCopy : JVal
deriving DecidableEq

/-- The resetOnInitialValuesChange policy values. -/
inductive ResetPolicy where
  | no
  | always
  | onlyIfClean
deriving DecidableEq

/-- Static configuration of the hook: the optional validator function and
whether the optional onSubmit and onValidationErrors callbacks were
supplied, plus the resetOnInitialValuesChange policy. -/
structure FormConfig where
  validator : Option (JVal → JVal)
  hasOnSubmit : Bool
  hasOnValidationErrors : Bool
  resetOnInitialValuesChange : ResetPolicy

/-- Hook initialisation: values starts as initialValues, every map container
starts empty, the flags are cleared, and initialValuesCopy stores the
baseline. -/
def initForm (initialValues : JVal) : FormState :=
  { values := initialValues
    changes := .vObj .nil
    errors := .vObj .nil
    keys := .vObj .nil
    touched := .vObj .nil
    isSubmitting := false
    formKey := 0
    initialValuesCopy := initialValues }

/-- Options of reset: an optional replacement value tree and the
forceRender flag. -/
structure ResetOpts where
  newValues : Option JVal
  forceRender : Bool
deriving DecidableEq

/-- reset: clears changes, errors and touched; with newValues both the
values container and the stored baseline become the new tree, otherwise
values is restored from the stored baseline; forceRender bumps the global
form key. -/
def reset (opts : ResetOpts) (s : FormState) : FormState :=
  let s1 := { s with changes := JVal.vObj .nil
                     errors := JVal.vObj .nil
                     touched := JVal.vObj .nil }
  let s2 := match opts.newValues with
    | some nv => { s1 with values := nv, initialValuesCopy := nv }
    | none => { s1 with values := s1.initialValuesCopy }
  if opts.forceRender then { s2 with formKey := s2.formKey + 1 } else s2

/-- The record validateAll answers with. -/
structure ValidateAllResult where
  errors : JVal
  hasErrors : Bool
deriving DecidableEq

/-- Nullish coalescing of the validator result with the empty object, as
done when storing it into the errors container: undefined and null become
the empty object, everything else passes through. -/
def jsOrEmptyObj : JVal → JVal
  | .vUndefined => .vObj .nil
  | .vNull => .vObj .nil
  | v => v

/-- Object.keys(r).filter(key => r[key]).length: the count of truthy-valued
top-level fields; 0 for non-objects (the validator is typed to return an
object when it returns at all). -/
def countTruthyKeys : JVal → Nat
  | .vObj fs => fs.countP truthy
  | _ => 0

/-- validateAll: without a validator it reports hasErrors false and leaves
the state alone; otherwise it runs the validator over the whole values
tree, stores the nullish-coalesced result in the errors container, and
reports hasErrors exactly when the result is truthy and at least one
top-level field of it is truthy. -/
def validateAll (cfg : FormConfig) (s : FormState) : FormState × ValidateAllResult :=
  match cfg.validator with
  | none => (s, { errors := .vUndefined, hasErrors := false })
  | some f =>
    let validationResult := f s.values
    let hasErrors := truthy validationResult && decide (0 < countTruthyKeys validationResult)
    ({ s with errors := jsOrEmptyObj validationResult },
     { errors := validationResult, hasErrors := hasErrors })

/-- validateField: runs the validator (when present) over the whole values
tree, extracts the entry at the dot-segmented path from the full result,
stores it at that path of the errors container when truthy and clears that
path otherwise, and returns the extracted entry. -/
def validateField (cfg : FormConfig) (path : String) (s : FormState) : FormState × JVal :=
  let fullResult := match cfg.validator with
    | some f => f s.values
    | none => JVal.vUndefined
  let fieldResult := getDeepPath fullResult (pathSegs path)
  if truthy fieldResult then
    ({ s with errors := setDeepPath s.errors (pathSegs path) fieldResult }, fieldResult)
  else
    ({ s with errors := clearDeepPath s.errors (pathSegs path) }, fieldResult)

/-- incrementKey: when the current entry at the path of the keys container
is falsy (absent or 0) the key becomes 1, otherwise its successor. The keys
container only ever holds numbers, so the pass-through fallback branch is
unreachable. -/
def incrementKey (path : String) (s : FormState) : FormState :=
  let current := getDeepPath s.keys (pathSegs path)
  let next : JVal :=
    if truthy current then
      match current with
      | .vNum n => .vNum (n + 1)
      | other => other
    else .vNum 1
  { s with keys := setDeepPath s.keys (pathSegs path) next }

/-- The option bag of setFieldValue. -/
structure SetFieldOpts where
  skipValidation : Bool
  skipIncrementKey : Bool
deriving DecidableEq

/-- setFieldValue: writes the value at the path into the changes container
and then into the values container, then re-validates the field unless
skipValidation, then increments the field's render key unless
skipIncrementKey. -/
def setFieldValue (cfg : FormConfig) (path : String) (value : JVal)
    (opts : SetFieldOpts) (s : FormState) : FormState :=
  let s1 := { s with changes := setDeepPath s.changes (pathSegs path) value }
  let s2 := { s1 with values := setDeepPath s1.values (pathSegs path) value }
  let s3 := if opts.skipValidation then s2 else (validateField cfg path s2).1
  if opts.skipIncrementKey then s3 else incrementKey path s3

/-- setFieldValues: writes every pair into the changes container in one
batch, then every pair into the values container in one batch, then
increments each written path's render key. -/
def setFieldValues (newValues : List (String × JVal)) (s : FormState) : FormState :=
  let newChanges := newValues.foldl (fun c it => setDeepPath c (pathSegs it.1) it.2) s.changes
  let s1 := { s with changes := newChanges }
  let newVals := newValues.foldl (fun v it => setDeepPath v (pathSegs it.1) it.2) s1.values
  let s2 := { s1 with values := newVals }
  newValues.foldl (fun st it => incrementKey it.1 st) s2

/-- An event-shaped onChange argument: a non-null object with a target
property (typeof e is object, e is not null, and target is in e). -/
def isEventShaped : JVal → Bool
  | .vObj fs => (fs.lookup "target").isSome
  | _ => false

/-- Normalise an onChange argument: event-shaped arguments contribute
e.target.value, anything else is already the raw value. -/
def eventNewValue (e : JVal) : JVal :=
  if isEventShaped e then getDeepPath e ["target", "value"] else e

/-- The field onChange handler (useField and getInputEventHandlers install
the same logic): normalise the argument, then setFieldValue with the
render-key bump skipped and validation skipped exactly when the errors
container held no truthy entry at the path beforehand. -/
def onChange (cfg : FormConfig) (path : String) (e : JVal) (s : FormState) : FormState :=
  let newValue := eventNewValue e
  let prevHasError := truthy (getDeepPath s.errors (pathSegs path))
  setFieldValue cfg path newValue
    { skipValidation := !prevHasError, skipIncrementKey := true } s

/-- The field onFocus handler marks the path as touched. -/
def onFocus (path : String) (s : FormState) : FormState :=
  { s with touched := setDeepPath s.touched (pathSegs path) (.vBool true) }

/-- The field onBlur handler always re-validates the field. -/
def onBlur (cfg : FormConfig) (path : String) (s : FormState) : FormState :=
  (validateField cfg path s).1

/-- Outcome of the synchronous prefix of submit, which runs up to (and
including) handing the current values and changes to the asynchronous
submit handler. -/
inductive StartOutcome where
  | bailed
  | failedValidation (callbackArgs : Option JVal)
  | started (valuesData : JVal) (changesData : JVal)
deriving DecidableEq

/-- The synchronous prefix of submit: return silently when already
submitting or when no submit handler is configured; otherwise run
validateAll and either stop, handing the raw validation errors to
onValidationErrors when that callback exists, or set the submitting flag
and invoke the handler with the current values and changes. -/
def submitStart (cfg : FormConfig) (s : FormState) : FormState × StartOutcome :=
  if s.isSubmitting then (s, .bailed)
  else if !cfg.hasOnSubmit then (s, .bailed)
  else
    let p := validateAll cfg s
    if p.2.hasErrors then
      (p.1, .failedValidation (if cfg.hasOnValidationErrors then some p.2.errors else none))
    else
      ({ p.1 with isSubmitting := true }, .started p.1.values p.1.changes)

/-- Behaviour of the caller-supplied asynchronous submit handler. -/
inductive HandlerResult where
  | resolves (v : JVal)
  | rejects (e : JVal)
deriving DecidableEq

/-- What a whole submit call settles to. -/
inductive SubmitRet where
  | earlyUndefined
  | resolved (v : JVal)
  | raised (e : JVal)
deriving DecidableEq

/-- A whole submit run: after the synchronous prefix, a resolving handler
leads to the submitting flag being cleared and the handler result being
returned, while a rejecting handler propagates its exception out of the
await with no further state update, so the flag stays set. -/
def submitRun (cfg : FormConfig) (hr : HandlerResult) (s : FormState) :
    FormState × SubmitRet :=
  match submitStart cfg s with
  | (s1, .started _ _) =>
    match hr with
    | .resolves v => ({ s1 with isSubmitting := false }, .resolved v)
    | .rejects e => (s1, .raised e)
  | (s1, .bailed) => (s1, .earlyUndefined)
  | (s1, .failedValidation _) => (s1, .earlyUndefined)

/-- How many times one synchronous prefix invokes the submit handler. -/
def handlerInvocations : StartOutcome → Nat
  | .started _ _ => 1
  | _ => 0

/-- Object.keys(x).length of a container state (containers are always
objects). -/
def topKeyCount : JVal → Nat
  | .vObj fs => fs.keys.length
  | _ => 0

/-- The initial-values effect: when the incoming initialValues reference
differs from the values state (sameRef embeds the JS reference
comparison), apply the configured policy: never reset, always reset to the
new tree with a forced render, or do so only when the changes container is
empty. -/
def initialValuesEffect (cfg : FormConfig) (newInitial : JVal) (sameRef : Bool)
    (s : FormState) : FormState :=
  if sameRef then s
  else
    match cfg.resetOnInitialValuesChange with
    | .no => s
    | .always => reset { newValues := some newInitial, forceRender := true } s
    | .onlyIfClean =>
      if topKeyCount s.changes == 0 then
        reset { newValues := some newInitial, forceRender := true } s
      else s

/-- One non-reset operation of the form controller surface, used to state
properties over operation sequences. -/
inductive FormOp where
  | opSetFieldValue (path : String) (value : JVal) (opts : SetFieldOpts)
  | opSetFieldValues (pairs : List (String × JVal))
  | opValidateField (path : String)
  | opValidateAll
  | opIncrementKey (path : String)
  | opFocus (path : String)
  | opBlur (path : String)
  | opChange (path : String) (e : JVal)
  | opSubmit (hr : HandlerResult)

/-- The state transition of one operation. -/
def stepOp (cfg : FormConfig) (op : FormOp) (s : FormState) : FormState :=
  match op with
  | .opSetFieldValue p v o => setFieldValue cfg p v o s
  | .opSetFieldValues ps => setFieldValues ps s
  | .opValidateField p => (validateField cfg p s).1
  | .opValidateAll => (validateAll cfg s).1
  | .opIncrementKey p => incrementKey p s
  | .opFocus p => onFocus p s
  | .opBlur p => onBlur cfg p s
  | .opChange p e => onChange cfg p e s
  | .opSubmit hr => (submitRun cfg hr s).1

theorem validateField_frame (cfg : FormConfig) (path : String) (s : FormState) :
    (validateField cfg path s).1.values = s.values ∧
    (validateField cfg path s).1.changes = s.changes ∧
    (validateField cfg path s).1.keys = s.keys ∧
    (validateField cfg path s).1.touched = s.touched ∧
    (validateField cfg path s).1.isSubmitting = s.isSubmitting ∧
    (validateField cfg path s).1.formKey = s.formKey ∧
    (validateField cfg path s).1.initialValuesCopy = s.initialValuesCopy := by
  unfold validateField
  dsimp only
  split <;> simp

theorem validateAll_frame (cfg : FormConfig) (s : FormState) :
    (validateAll cfg s).1.values = s.values ∧
    (validateAll cfg s).1.changes = s.changes ∧
    (validateAll cfg s).1.keys = s.keys ∧
    (validateAll cfg s).1.touched = s.touched ∧
    (validateAll cfg s).1.isSubmitting = s.isSubmitting ∧
    (validateAll cfg s).1.formKey = s.formKey ∧
    (validateAll cfg s).1.initialValuesCopy = s.initialValuesCopy := by
  unfold validateAll
  cases cfg.validator <;> simp

theorem incrementKey_frame (path : String) (s : FormState) :
    (incrementKey path s).values = s.values ∧
    (incrementKey path s).changes = s.changes ∧
    (incrementKey path s).errors = s.errors ∧
    (incrementKey path s).touched = s.touched ∧
    (incrementKey path s).isSubmitting = s.isSubmitting ∧
    (incrementKey path s).formKey = s.formKey ∧
    (incrementKey path s).initialValuesCopy = s.initialValuesCopy := by
  unfold incrementKey
  simp

theorem setFieldValue_changes (cfg : FormConfig) (path : String) (value : JVal)
    (opts : SetFieldOpts) (s : FormState) :
    (setFieldValue cfg path value opts s).changes
      = setDeepPath s.changes (pathSegs path) value := by
  unfold setFieldValue
  dsimp only
  by_cases h1 : opts.skipValidation <;> by_cases h2 : opts.skipIncrementKey <;>
    simp [h1, h2, validateField_frame, incrementKey_frame]

theorem setFieldValue_values (cfg : FormConfig) (path : String) (value : JVal)
    (opts : SetFieldOpts) (s : FormState) :
    (setFieldValue cfg path value opts s).values
      = setDeepPath s.values (pathSegs path) value := by
  unfold setFieldValue
  dsimp only
  by_cases h1 : opts.skipValidation <;> by_cases h2 : opts.skipIncrementKey <;>
    simp [h1, h2, validateField_frame, incrementKey_frame]

theorem setFieldValue_initialValuesCopy (cfg : FormConfig) (path : String) (value : JVal)
    (opts : SetFieldOpts) (s : FormState) :
    (setFieldValue cfg path value opts s).initialValuesCopy = s.initialValuesCopy := by
  unfold setFieldValue
  dsimp only
  by_cases h1 : opts.skipValidation <;> by_cases h2 : opts.skipIncrementKey <;>
    simp [h1, h2, validateField_frame, incrementKey_frame]

theorem foldl_incrementKey_initialValuesCopy (l : List (String × JVal)) (s : FormState) :
    (l.foldl (fun st it => incrementKey it.1 st) s).initialValuesCopy
      = s.initialValuesCopy := by
  induction l generalizing s with
  | nil => rfl
  | cons hd tl ih => simp [List.foldl_cons, ih, incrementKey_frame]

theorem setFieldValues_initialValuesCopy (pairs : List (String × JVal)) (s : FormState) :
    (setFieldValues pairs s).initialValuesCopy = s.initialValuesCopy := by
  unfold setFieldValues
  simp [foldl_incrementKey_initialValuesCopy]

theorem submitStart_initialValuesCopy (cfg : FormConfig) (s : FormState) :
    (submitStart cfg s).1.initialValuesCopy = s.initialValuesCopy := by
  unfold submitStart
  dsimp only
  split
  · rfl
  · split
    · rfl
    · split <;> simp [validateAll_frame]

theorem submitRun_initialValuesCopy (cfg : FormConfig) (hr : HandlerResult) (s : FormState) :
    (submitRun cfg hr s).1.initialValuesCopy = s.initialValuesCopy := by
  unfold submitRun
  have h := submitStart_initialValuesCopy cfg s
  rcases hs : submitStart cfg s with ⟨s1, out⟩
  rw [hs] at h
  cases out with
  | bailed => simpa using h
  | failedValidation cb => simpa using h
  | started vd cd => cases hr <;> simpa using h

/-- No operation of the controller surface other than reset touches the
stored baseline. -/
theorem stepOp_initialValuesCopy (cfg : FormConfig) (op : FormOp) (s : FormState) :
    (stepOp cfg op s).initialValuesCopy = s.initialValuesCopy := by
  cases op with
  | opSetFieldValue p v o => simpa [stepOp] using setFieldValue_initialValuesCopy cfg p v o s
  | opSetFieldValues ps => simpa [stepOp] using setFieldValues_initialValuesCopy ps s
  | opValidateField p => simpa [stepOp] using (validateField_frame cfg p s).2.2.2.2.2.2
  | opValidateAll => simpa [stepOp] using (validateAll_frame cfg s).2.2.2.2.2.2
  | opIncrementKey p => simpa [stepOp] using (incrementKey_frame p s).2.2.2.2.2.2
  | opFocus p => simp [stepOp, onFocus]
  | opBlur p => simpa [stepOp, onBlur] using (validateField_frame cfg p s).2.2.2.2.2.2
  | opChange p e => simp [stepOp, onChange, setFieldValue_initialValuesCopy]
  | opSubmit hr => simpa [stepOp] using submitRun_initialValuesCopy cfg hr s

theorem foldl_stepOp_initialValuesCopy (cfg : FormConfig) (ops : List FormOp) (s : FormState) :
    (ops.foldl (fun st op => stepOp cfg op st) s).initialValuesCopy
      = s.initialValuesCopy := by
  induction ops generalizing s with
  | nil => rfl
  | cons hd tl ih => simp [List.foldl_cons, ih, stepOp_initialValuesCopy]

theorem splitCharsOnDot_ne_nil (cs : List Char) : splitCharsOnDot cs ≠ [] := by
  induction cs with
  | nil => simp [splitCharsOnDot]
  | cons c rest ih =>
    simp only [splitCharsOnDot]
    split
    · simp
    · cases h : splitCharsOnDot rest with
      | nil => exact absurd h ih
      | cons hd tl => simp

/-- Splitting a path into segments always yields at least one segment. -/
theorem pathSegs_ne_nil (path : String) : pathSegs path ≠ [] :=
  splitCharsOnDot_ne_nil path.data

/-- Object.keys of a container state (containers are always objects). -/
def topKeys : JVal → List String
  | .vObj fs => fs.keys
  | _ => []

/-- Whether some top-level field of a validation result is truthy. -/
def anyTruthyKeys : JVal → Bool
  | .vObj fs => fs.anyP truthy
  | _ => false

/-- The positive-count test the source uses agrees with having a truthy
top-level field. -/
theorem decide_countTruthyKeys_pos (r : JVal) :
    decide (0 < countTruthyKeys r) = anyTruthyKeys r := by
  cases r <;> simp [countTruthyKeys, anyTruthyKeys, JFields.countP_pos_iff_anyP]

/-- Run a sequence of controller operations left to right. -/
def applyOps (cfg : FormConfig) (ops : List FormOp) (s : FormState) : FormState :=
  ops.foldl (fun st op => stepOp cfg op st) s

/-- When the synchronous prefix of submit reaches the handler, it has set
the submitting flag. -/
theorem submitStart_started_isSubmitting (cfg : FormConfig) (s s1 : FormState)
    (vd cd : JVal) (h : submitStart cfg s = (s1, .started vd cd)) :
    s1.isSubmitting = true := by
  unfold submitStart at h
  split at h
  · exact absurd h (by simp)
  · split at h
    · exact absurd h (by simp)
    · dsimp only at h
      split at h
      · exact absurd h (by simp)
      · have h1 := congrArg Prod.fst h
        dsimp only at h1
        rw [← h1]

theorem setDeepPath_single (fs : JFields) (k : String) (v : JVal) :
    setDeepPath (.vObj fs) [k] v = .vObj (fs.set k v) := by
  simp [setDeepPath]

/-- Folding flat-path setFieldValue writes over a state accumulates exactly
the written top-level keys into the changes container. -/
theorem mem_topKeys_foldl_setFieldValue (cfg : FormConfig)
    (writes : List (String × JVal × SetFieldOpts)) :
    ∀ (s : FormState) (fs : JFields), s.changes = .vObj fs →
      (∀ w ∈ writes, pathSegs w.1 = [w.1]) →
      ∀ k, (k ∈ topKeys ((writes.foldl
              (fun st w => setFieldValue cfg w.1 w.2.1 w.2.2 st) s).changes)
            ↔ k ∈ writes.map Prod.fst ∨ k ∈ fs.keys) := by
  induction writes with
  | nil =>
    intro s fs hch hflat k
    simp [hch, topKeys]
  | cons w ws ih =>
    intro s fs hch hflat k
    have hw : pathSegs w.1 = [w.1] := hflat w (List.mem_cons_self _ _)
    have hch2 : (setFieldValue cfg w.1 w.2.1 w.2.2 s).changes
        = .vObj (fs.set w.1 w.2.1) := by
      rw [setFieldValue_changes, hw, hch, setDeepPath_single]
    rw [List.foldl_cons,
      ih _ _ hch2 (fun w2 hw2 => hflat w2 (List.mem_cons_of_mem _ hw2)) k]
    simp only [JFields.mem_keys_set, List.map_cons, List.mem_cons]
    tauto

/-- C1: setFieldValue(path, value, opts) makes the values container hold the
new value at the path immediately, and for every option bag the changes
container holds it at the path as well — the source offers no option that
skips the changes write, so the "unless explicitly skipped" escape never
fires.  Moreover, starting from a reset, the top-level keys of the changes
container are exactly the set of (flat) paths explicitly written since. -/
theorem setFieldValue_writes_values_and_changes :
    (∀ (cfg : FormConfig) (path : String) (value : JVal) (opts : SetFieldOpts)
        (s : FormState),
      getDeepPath (setFieldValue cfg path value opts s).values (pathSegs path) = value ∧
      getDeepPath (setFieldValue cfg path value opts s).changes (pathSegs path) = value) ∧
    (∀ (cfg : FormConfig) (writes : List (String × JVal × SetFieldOpts)) (s : FormState),
      (∀ w ∈ writes, pathSegs w.1 = [w.1]) →
      ∀ k, (k ∈ topKeys ((writes.foldl
              (fun st w => setFieldValue cfg w.1 w.2.1 w.2.2 st)
              (reset { newValues := none, forceRender := false } s)).changes)
            ↔ k ∈ writes.map Prod.fst)) := by
  constructor
  · intro cfg path value opts s
    constructor
    · rw [setFieldValue_values]
      exact getDeepPath_setDeepPath _ _ _
    · rw [setFieldValue_changes]
      exact getDeepPath_setDeepPath _ _ _
  · intro cfg writes s hflat k
    have hch : (reset { newValues := none, forceRender := false } s).changes
        = .vObj .nil := by
      simp [reset]
    rw [mem_topKeys_foldl_setFieldValue cfg writes _ _ hch hflat k]
    simp [JFields.keys]

/-- Witness for C1 at concrete inputs: a nested write lands in values and
changes, and after three flat writes since reset the changes keys are
exactly the written ones. -/
theorem setFieldValue_writes_values_and_changes_witness :
    getDeepPath (setFieldValue
        { validator := none, hasOnSubmit := false, hasOnValidationErrors := false,
          resetOnInitialValuesChange := ResetPolicy.no }
        "a.b" (.vNum 5) ⟨false, false⟩ (initForm (.vObj .nil))).values
      (pathSegs "a.b") = .vNum 5 ∧
    ("name" ∈ topKeys (([("name", (JVal.vStr "Jo", (⟨false, false⟩ : SetFieldOpts))),
          ("email", (JVal.vStr "e", (⟨true, true⟩ : SetFieldOpts))),
          ("name", (JVal.vStr "Joe", (⟨false, true⟩ : SetFieldOpts)))].foldl
        (fun st w => setFieldValue
          { validator := none, hasOnSubmit := false, hasOnValidationErrors := false,
            resetOnInitialValuesChange := ResetPolicy.no } w.1 w.2.1 w.2.2 st)
        (reset { newValues := none, forceRender := false }
          (initForm (jObj [("name", .vStr "John")])))).changes) ∧
      "age" ∉ topKeys (([("name", (JVal.vStr "Jo", (⟨false, false⟩ : SetFieldOpts))),
          ("email", (JVal.vStr "e", (⟨true, true⟩ : SetFieldOpts))),
          ("name", (JVal.vStr "Joe", (⟨false, true⟩ : SetFieldOpts)))].foldl
        (fun st w => setFieldValue
          { validator := none, hasOnSubmit := false, hasOnValidationErrors := false,
            resetOnInitialValuesChange := ResetPolicy.no } w.1 w.2.1 w.2.2 st)
        (reset { newValues := none, forceRender := false }
          (initForm (jObj [("name", .vStr "John")])))).changes)) := by
  have h1 := setFieldValue_writes_values_and_changes.1
    { validator := none, hasOnSubmit := false, hasOnValidationErrors := false,
      resetOnInitialValuesChange := ResetPolicy.no }
    "a.b" (.vNum 5) ⟨false, false⟩ (initForm (.vObj .nil))
  have h2 := setFieldValue_writes_values_and_changes.2
    { validator := none, hasOnSubmit := false, hasOnValidationErrors := false,
      resetOnInitialValuesChange := ResetPolicy.no }
    [("name", (JVal.vStr "Jo", (⟨false, false⟩ : SetFieldOpts))),
     ("email", (JVal.vStr "e", (⟨true, true⟩ : SetFieldOpts))),
     ("name", (JVal.vStr "Joe", (⟨false, true⟩ : SetFieldOpts)))]
    (initForm (jObj [("name", .vStr "John")])) (by decide)
  have h3 := h2 "name"
  have h4 := h2 "age"
  exact ⟨h1.1, h3.mpr (by decide), fun hmem => absurd (h4.mp hmem) (by decide)⟩

/-- C8: reset() with no arguments empties the changes, errors and touched
containers, restores the values container from the stored baseline, and
leaves the keys container, the flags and the baseline itself alone; at
construction the stored baseline is the supplied initialValues. -/
theorem reset_noArgs_restores_baseline (s : FormState) (iv : JVal) :
    (reset { newValues := none, forceRender := false } s).values = s.initialValuesCopy ∧
    (reset { newValues := none, forceRender := false } s).changes = JVal.vObj .nil ∧
    (reset { newValues := none, forceRender := false } s).errors = JVal.vObj .nil ∧
    (reset { newValues := none, forceRender := false } s).touched = JVal.vObj .nil ∧
    (reset { newValues := none, forceRender := false } s).keys = s.keys ∧
    (reset { newValues := none, forceRender := false } s).isSubmitting = s.isSubmitting ∧
    (reset { newValues := none, forceRender := false } s).formKey = s.formKey ∧
    (reset { newValues := none, forceRender := false } s).initialValuesCopy
      = s.initialValuesCopy ∧
    (initForm iv).initialValuesCopy = iv := by
  simp [reset, initForm]

/-- C10: reset with newValues v stores v as the new baseline in addition to
setting values to v; the baseline survives every sequence of non-reset
controller operations, so a later plain reset() restores values to v rather
than to the construction-time initial values. -/
theorem reset_newValues_replaces_baseline (cfg : FormConfig) (v : JVal) (fr : Bool)
    (s : FormState) (ops : List FormOp) :
    (reset { newValues := some v, forceRender := fr } s).values = v ∧
    (reset { newValues := some v, forceRender := fr } s).initialValuesCopy = v ∧
    (applyOps cfg ops (reset { newValues := some v, forceRender := fr } s)).initialValuesCopy
      = v ∧
    (reset { newValues := none, forceRender := false }
      (applyOps cfg ops (reset { newValues := some v, forceRender := fr } s))).values
      = v := by
  have hvals : (reset { newValues := some v, forceRender := fr } s).values = v := by
    unfold reset
    dsimp only
    split <;> rfl
  have hcopy : (reset { newValues := some v, forceRender := fr } s).initialValuesCopy = v := by
    unfold reset
    dsimp only
    split <;> rfl
  have hops : (applyOps cfg ops
      (reset { newValues := some v, forceRender := fr } s)).initialValuesCopy = v := by
    unfold applyOps
    rw [foldl_stepOp_initialValuesCopy]
    exact hcopy
  refine ⟨hvals, hcopy, hops, ?_⟩
  have hnone : ∀ u : FormState,
      (reset { newValues := none, forceRender := false } u).values
        = u.initialValuesCopy := by
    intro u
    simp [reset]
  rw [hnone, hops]

/-- C7: under resetOnInitialValuesChange OnlyIfClean, when the changes
container is non-empty an external initialValues change (a fresh reference,
so the reference comparison fails) leaves the whole state — in particular
values, changes, errors and touched — untouched; when changes is empty the
same event resets the form onto the new initial values. -/
theorem onlyIfClean_keeps_dirty_values (cfg : FormConfig) (newInitial : JVal)
    (s : FormState)
    (hpol : cfg.resetOnInitialValuesChange = ResetPolicy.onlyIfClean) :
    (topKeyCount s.changes ≠ 0 → initialValuesEffect cfg newInitial false s = s) ∧
    (topKeyCount s.changes = 0 →
      (initialValuesEffect cfg newInitial false s).values = newInitial ∧
      (initialValuesEffect cfg newInitial false s).changes = JVal.vObj .nil ∧
      (initialValuesEffect cfg newInitial false s).errors = JVal.vObj .nil ∧
      (initialValuesEffect cfg newInitial false s).touched = JVal.vObj .nil ∧
      (initialValuesEffect cfg newInitial false s).initialValuesCopy = newInitial) := by
  constructor
  · intro h
    simp [initialValuesEffect, hpol, h]
  · intro h
    simp [initialValuesEffect, hpol, h, reset]

/-- Witness for C7: with one change recorded the effect keeps the edited
values; with no change recorded it adopts the new initial values. -/
theorem onlyIfClean_keeps_dirty_values_witness :
    initialValuesEffect
        { validator := none, hasOnSubmit := false, hasOnValidationErrors := false,
          resetOnInitialValuesChange := ResetPolicy.onlyIfClean }
        (jObj [("a", .vNum 2)]) false
        { values := jObj [("a", .vNum 9)], changes := jObj [("a", .vNum 9)],
          errors := .vObj .nil, keys := .vObj .nil, touched := .vObj .nil,
          isSubmitting := false, formKey := 0,
          initialValuesCopy := jObj [("a", .vNum 1)] }
      = { values := jObj [("a", .vNum 9)], changes := jObj [("a", .vNum 9)],
          errors := .vObj .nil, keys := .vObj .nil, touched := .vObj .nil,
          isSubmitting := false, formKey := 0,
          initialValuesCopy := jObj [("a", .vNum 1)] } ∧
    (initialValuesEffect
        { validator := none, hasOnSubmit := false, hasOnValidationErrors := false,
          resetOnInitialValuesChange := ResetPolicy.onlyIfClean }
        (jObj [("a", .vNum 2)]) false
        (initForm (jObj [("a", .vNum 1)]))).values = jObj [("a", .vNum 2)] := by
  have h1 := onlyIfClean_keeps_dirty_values
    { validator := none, hasOnSubmit := false, hasOnValidationErrors := false,
      resetOnInitialValuesChange := ResetPolicy.onlyIfClean }
    (jObj [("a", .vNum 2)])
    { values := jObj [("a", .vNum 9)], changes := jObj [("a", .vNum 9)],
      errors := .vObj .nil, keys := .vObj .nil, touched := .vObj .nil,
      isSubmitting := false, formKey := 0,
      initialValuesCopy := jObj [("a", .vNum 1)] } rfl
  have h2 := onlyIfClean_keeps_dirty_values
    { validator := none, hasOnSubmit := false, hasOnValidationErrors := false,
      resetOnInitialValuesChange := ResetPolicy.onlyIfClean }
    (jObj [("a", .vNum 2)]) (initForm (jObj [("a", .vNum 1)])) rfl
  exact ⟨h1.1 (by decide), (h2.2 (by decide)).1⟩

/-- C5: with a validator configured, validateAll runs it on the full current
values, stores the whole (nullish-coalesced) result in the errors container
with everything else untouched, returns the raw result as errors, and
reports hasErrors exactly when the result is truthy and some top-level
field of it is truthy — so fields holding undefined or null do not count. -/
theorem validateAll_counts_truthy_errors (cfg : FormConfig) (f : JVal → JVal)
    (s : FormState) (hv : cfg.validator = some f) :
    (validateAll cfg s).1 = { s with errors := jsOrEmptyObj (f s.values) } ∧
    (validateAll cfg s).2.errors = f s.values ∧
    (validateAll cfg s).2.hasErrors
      = (truthy (f s.values) && anyTruthyKeys (f s.values)) := by
  unfold validateAll
  rw [hv]
  dsimp only
  exact ⟨rfl, rfl, by rw [decide_countTruthyKeys_pos]⟩

/-- Witness for C5: a validator answering with field a undefined and field b
the string required yields hasErrors true and stores that object verbatim. -/
theorem validateAll_counts_truthy_errors_witness :
    (validateAll
        { validator := some (fun _ => jObj [("a", .vUndefined), ("b", .vStr "required")]),
          hasOnSubmit := false, hasOnValidationErrors := false,
          resetOnInitialValuesChange := ResetPolicy.no }
        (initForm (.vObj .nil))).2.hasErrors = true ∧
    (validateAll
        { validator := some (fun _ => jObj [("a", .vUndefined), ("b", .vStr "required")]),
          hasOnSubmit := false, hasOnValidationErrors := false,
          resetOnInitialValuesChange := ResetPolicy.no }
        (initForm (.vObj .nil))).1.errors
      = jObj [("a", .vUndefined), ("b", .vStr "required")] ∧
    (validateAll
        { validator := some (fun _ => jObj [("a", .vUndefined), ("b", .vStr "required")]),
          hasOnSubmit := false, hasOnValidationErrors := false,
          resetOnInitialValuesChange := ResetPolicy.no }
        (initForm (.vObj .nil))).2.errors
      = jObj [("a", .vUndefined), ("b", .vStr "required")] := by
  have h := validateAll_counts_truthy_errors
    { validator := some (fun _ => jObj [("a", .vUndefined), ("b", .vStr "required")]),
      hasOnSubmit := false, hasOnValidationErrors := false,
      resetOnInitialValuesChange := ResetPolicy.no }
    (fun _ => jObj [("a", .vUndefined), ("b", .vStr "required")])
    (initForm (.vObj .nil)) rfl
  refine ⟨?_, ?_, ?_⟩
  · rw [h.2.2]
    decide
  · rw [h.1]
    decide
  · rw [h.2.1]

/-- C6: with a validator configured, validateField(path) runs it over the
full current values, extracts the entry at the dot-segmented path from the
full result and returns it; when the entry is truthy it is written at that
path of the errors container (and reads back from it), otherwise that path
of the errors container is cleared (and reads back undefined). -/
theorem validateField_dot_traversal (cfg : FormConfig) (f : JVal → JVal)
    (path : String) (s : FormState) (hv : cfg.validator = some f) :
    (validateField cfg path s).2 = getDeepPath (f s.values) (pathSegs path) ∧
    (truthy (getDeepPath (f s.values) (pathSegs path)) = true →
      (validateField cfg path s).1.errors
        = setDeepPath s.errors (pathSegs path)
            (getDeepPath (f s.values) (pathSegs path)) ∧
      getDeepPath (validateField cfg path s).1.errors (pathSegs path)
        = getDeepPath (f s.values) (pathSegs path)) ∧
    (truthy (getDeepPath (f s.values) (pathSegs path)) = false →
      (validateField cfg path s).1.errors = clearDeepPath s.errors (pathSegs path) ∧
      getDeepPath (validateField cfg path s).1.errors (pathSegs path)
        = JVal.vUndefined) := by
  have hsp := pathSegs_ne_nil path
  unfold validateField
  rw [hv]
  dsimp only
  refine ⟨?_, ?_, ?_⟩
  · split <;> rfl
  · intro h
    rw [if_pos h]
    exact ⟨rfl, getDeepPath_setDeepPath _ _ _⟩
  · intro h
    rw [if_neg (by simp [h])]
    exact ⟨rfl, getDeepPath_clearDeepPath _ hsp _⟩

/-- Witness for C6 at the dotted path a.b.c: a nested validator result is
extracted segment by segment and stored, and a clean result clears a
previously stored nested error. -/
theorem validateField_dot_traversal_witness :
    (validateField
        { validator := some (fun _ => jObj [("a", jObj [("b", jObj [("c", .vStr "required")])])]),
          hasOnSubmit := false, hasOnValidationErrors := false,
          resetOnInitialValuesChange := ResetPolicy.no }
        "a.b.c" (initForm (.vObj .nil))).2 = .vStr "required" ∧
    getDeepPath (validateField
        { validator := some (fun _ => jObj [("a", jObj [("b", jObj [("c", .vStr "required")])])]),
          hasOnSubmit := false, hasOnValidationErrors := false,
          resetOnInitialValuesChange := ResetPolicy.no }
        "a.b.c" (initForm (.vObj .nil))).1.errors (pathSegs "a.b.c")
      = .vStr "required" ∧
    getDeepPath (validateField
        { validator := some (fun _ => JVal.vObj .nil),
          hasOnSubmit := false, hasOnValidationErrors := false,
          resetOnInitialValuesChange := ResetPolicy.no }
        "a.b.c"
        { values := .vObj .nil,
          changes := .vObj .nil,
          errors := jObj [("a", jObj [("b", jObj [("c", .vStr "required")])])],
          keys := .vObj .nil, touched := .vObj .nil, isSubmitting := false,
          formKey := 0, initialValuesCopy := .vObj .nil }).1.errors
      (pathSegs "a.b.c") = .vUndefined := by
  have h1 := validateField_dot_traversal
    { validator := some (fun _ => jObj [("a", jObj [("b", jObj [("c", .vStr "required")])])]),
      hasOnSubmit := false, hasOnValidationErrors := false,
      resetOnInitialValuesChange := ResetPolicy.no }
    (fun _ => jObj [("a", jObj [("b", jObj [("c", .vStr "required")])])])
    "a.b.c" (initForm (.vObj .nil)) rfl
  have h2 := validateField_dot_traversal
    { validator := some (fun _ => JVal.vObj .nil),
      hasOnSubmit := false, hasOnValidationErrors := false,
      resetOnInitialValuesChange := ResetPolicy.no }
    (fun _ => JVal.vObj .nil)
    "a.b.c"
    { values := .vObj .nil,
      changes := .vObj .nil,
      errors := jObj [("a", jObj [("b", jObj [("c", .vStr "required")])])],
      keys := .vObj .nil, touched := .vObj .nil, isSubmitting := false,
      formKey := 0, initialValuesCopy := .vObj .nil } rfl
  refine ⟨?_, ?_, ?_⟩
  · rw [h1.1]
    decide
  · rw [(h1.2.1 (by decide)).2]
    decide
  · exact (h2.2.2 (by decide)).2

/-- C9: the field onChange handler re-validates the field exactly when the
errors container already held a truthy entry at the path: with no prior
error it only writes the changes and values containers and leaves errors
untouched, with a prior error it additionally runs validateField on the
updated state; it never bumps the render key, while onBlur always runs
validateField. -/
theorem onChange_revalidates_iff_error (cfg : FormConfig) (path : String)
    (e : JVal) (s : FormState) :
    (truthy (getDeepPath s.errors (pathSegs path)) = false →
      onChange cfg path e s
        = { s with
            changes := setDeepPath s.changes (pathSegs path) (eventNewValue e),
            values := setDeepPath s.values (pathSegs path) (eventNewValue e) } ∧
      (onChange cfg path e s).errors = s.errors) ∧
    (truthy (getDeepPath s.errors (pathSegs path)) = true →
      onChange cfg path e s
        = (validateField cfg path
            { s with
              changes := setDeepPath s.changes (pathSegs path) (eventNewValue e),
              values := setDeepPath s.values (pathSegs path) (eventNewValue e) }).1) ∧
    (onChange cfg path e s).keys = s.keys ∧
    onBlur cfg path s = (validateField cfg path s).1 := by
  refine ⟨?_, ?_, ?_, rfl⟩
  · intro h
    unfold onChange setFieldValue
    rw [h]
    simp
  · intro h
    unfold onChange setFieldValue
    rw [h]
    simp
  · by_cases h : truthy (getDeepPath s.errors (pathSegs path)) = true
    · unfold onChange setFieldValue
      rw [h]
      simp [validateField_frame]
    · rw [Bool.not_eq_true] at h
      unfold onChange setFieldValue
      rw [h]
      simp

/-- Witness for C9: with no prior error an onChange write leaves the errors
container alone even under an always-failing validator; with a prior error
recorded the same write re-validates and updates the error entry. -/
theorem onChange_revalidates_iff_error_witness :
    (onChange
        { validator := some (fun _ => jObj [("name", .vStr "required")]),
          hasOnSubmit := false, hasOnValidationErrors := false,
          resetOnInitialValuesChange := ResetPolicy.no }
        "name" (.vStr "x") (initForm (.vObj .nil))).errors = .vObj .nil ∧
    (onChange
        { validator := some (fun _ => jObj [("name", .vStr "required")]),
          hasOnSubmit := false, hasOnValidationErrors := false,
          resetOnInitialValuesChange := ResetPolicy.no }
        "name" (.vStr "x")
        { values := .vObj .nil, changes := .vObj .nil,
          errors := jObj [("name", .vStr "stale")],
          keys := .vObj .nil, touched := .vObj .nil, isSubmitting := false,
          formKey := 0, initialValuesCopy := .vObj .nil }).errors
      = jObj [("name", .vStr "required")] := by
  have h1 := onChange_revalidates_iff_error
    { validator := some (fun _ => jObj [("name", .vStr "required")]),
      hasOnSubmit := false, hasOnValidationErrors := false,
      resetOnInitialValuesChange := ResetPolicy.no }
    "name" (.vStr "x") (initForm (.vObj .nil))
  have h2 := onChange_revalidates_iff_error
    { validator := some (fun _ => jObj [("name", .vStr "required")]),
      hasOnSubmit := false, hasOnValidationErrors := false,
      resetOnInitialValuesChange := ResetPolicy.no }
    "name" (.vStr "x")
    { values := .vObj .nil, changes := .vObj .nil,
      errors := jObj [("name", .vStr "stale")],
      keys := .vObj .nil, touched := .vObj .nil, isSubmitting := false,
      formKey := 0, initialValuesCopy := .vObj .nil }
  refine ⟨(h1.1 (by decide)).2, ?_⟩
  rw [h2.2.1 (by decide)]
  decide

/-- C2: when a first submit has reached its awaited handler (outcome
started), the submitting flag is set, so a second submit call during the
pending await bails out at the guard: it returns the state it was given,
mutating no container, and across the two calls the handler is invoked
exactly once. -/
theorem submit_second_call_is_noop (cfg : FormConfig) (s s1 : FormState)
    (vd cd : JVal) (h : submitStart cfg s = (s1, .started vd cd)) :
    submitStart cfg s1 = (s1, .bailed) ∧
    handlerInvocations (.started vd cd) + handlerInvocations .bailed = 1 := by
  have hflag := submitStart_started_isSubmitting cfg s s1 vd cd h
  constructor
  · unfold submitStart
    rw [hflag]
    simp
  · rfl

/-- Witness for C2 at a concrete form: the first submit starts (flag set),
the second call on the resulting state bails with the state unchanged. -/
theorem submit_second_call_is_noop_witness :
    submitStart
        { validator := none, hasOnSubmit := true, hasOnValidationErrors := false,
          resetOnInitialValuesChange := ResetPolicy.no }
        { values := jObj [("a", .vNum 1)], changes := .vObj .nil,
          errors := .vObj .nil, keys := .vObj .nil, touched := .vObj .nil,
          isSubmitting := true, formKey := 0,
          initialValuesCopy := jObj [("a", .vNum 1)] }
      = ({ values := jObj [("a", .vNum 1)], changes := .vObj .nil,
           errors := .vObj .nil, keys := .vObj .nil, touched := .vObj .nil,
           isSubmitting := true, formKey := 0,
           initialValuesCopy := jObj [("a", .vNum 1)] }, .bailed) ∧
    handlerInvocations (.started (jObj [("a", .vNum 1)]) (.vObj .nil))
      + handlerInvocations .bailed = 1 :=
  submit_second_call_is_noop
    { validator := none, hasOnSubmit := true, hasOnValidationErrors := false,
      resetOnInitialValuesChange := ResetPolicy.no }
    (initForm (jObj [("a", .vNum 1)]))
    { values := jObj [("a", .vNum 1)], changes := .vObj .nil,
      errors := .vObj .nil, keys := .vObj .nil, touched := .vObj .nil,
      isSubmitting := true, formKey := 0,
      initialValuesCopy := jObj [("a", .vNum 1)] }
    (jObj [("a", .vNum 1)]) (.vObj .nil) (by decide)

/-- C3: a submit call on a non-submitting form with a submit handler
configured first runs validateAll (whose errors write is part of the
resulting state); with hasErrors it stops with the validation outcome —
handing the raw errors to onValidationErrors exactly when that callback is
configured — and the submitting flag still clear; otherwise it sets the
flag, invokes the handler with the current values and changes, and once the
handler resolves the flag is cleared and the handler result returned. -/
theorem submit_validates_then_runs (cfg : FormConfig) (s : FormState)
    (hflag : s.isSubmitting = false) (hon : cfg.hasOnSubmit = true) :
    ((validateAll cfg s).2.hasErrors = true →
      submitStart cfg s = ((validateAll cfg s).1,
        .failedValidation
          (if cfg.hasOnValidationErrors then some (validateAll cfg s).2.errors else none)) ∧
      (validateAll cfg s).1.isSubmitting = false) ∧
    ((validateAll cfg s).2.hasErrors = false →
      submitStart cfg s
        = ({ (validateAll cfg s).1 with isSubmitting := true },
           .started s.values s.changes) ∧
      ∀ v, submitRun cfg (.resolves v) s
        = ({ (validateAll cfg s).1 with isSubmitting := false }, .resolved v)) := by
  have hv := (validateAll_frame cfg s).1
  have hc := (validateAll_frame cfg s).2.1
  have hsub := (validateAll_frame cfg s).2.2.2.2.1
  constructor
  · intro herr
    constructor
    · unfold submitStart
      rw [hflag, hon]
      simp [herr]
    · rw [hsub, hflag]
  · intro herr
    have hstart : submitStart cfg s
        = ({ (validateAll cfg s).1 with isSubmitting := true },
           .started s.values s.changes) := by
      unfold submitStart
      rw [hflag, hon]
      simp [herr, hv, hc]
    refine ⟨hstart, fun v => ?_⟩
    unfold submitRun
    rw [hstart]

/-- Witness for C3: a failing validator stops submit before the handler with
the flag clear, and with no validator the handler path runs and the flag
ends clear with the handler result returned. -/
theorem submit_validates_then_runs_witness :
    submitStart
        { validator := some (fun _ => jObj [("name", .vStr "required")]),
          hasOnSubmit := true, hasOnValidationErrors := true,
          resetOnInitialValuesChange := ResetPolicy.no }
        (initForm (.vObj .nil))
      = ({ values := .vObj .nil, changes := .vObj .nil,
           errors := jObj [("name", .vStr "required")], keys := .vObj .nil,
           touched := .vObj .nil, isSubmitting := false, formKey := 0,
           initialValuesCopy := .vObj .nil },
         .failedValidation (some (jObj [("name", .vStr "required")]))) ∧
    submitRun
        { validator := none, hasOnSubmit := true, hasOnValidationErrors := false,
          resetOnInitialValuesChange := ResetPolicy.no }
        (.resolves (.vStr "saved")) (initForm (jObj [("a", .vNum 1)]))
      = ({ values := jObj [("a", .vNum 1)], changes := .vObj .nil,
           errors := .vObj .nil, keys := .vObj .nil, touched := .vObj .nil,
           isSubmitting := false, formKey := 0,
           initialValuesCopy := jObj [("a", .vNum 1)] },
         .resolved (.vStr "saved")) := by
  have h1 := submit_validates_then_runs
    { validator := some (fun _ => jObj [("name", .vStr "required")]),
      hasOnSubmit := true, hasOnValidationErrors := true,
      resetOnInitialValuesChange := ResetPolicy.no }
    (initForm (.vObj .nil)) rfl rfl
  have h2 := submit_validates_then_runs
    { validator := none, hasOnSubmit := true, hasOnValidationErrors := false,
      resetOnInitialValuesChange := ResetPolicy.no }
    (initForm (jObj [("a", .vNum 1)])) rfl rfl
  constructor
  · rw [(h1.1 (by decide)).1]
    decide
  · rw [(h2.2 (by decide)).2 (.vStr "saved")]
    decide

/-- C4: when submit has reached its awaited handler and the handler
rejects, the exception propagates out of submit as is, and no further
statement of submit runs: the state is exactly the started-phase state, in
which the submitting flag is still true. -/
theorem submit_reject_leaves_flag_set (cfg : FormConfig) (s s1 : FormState)
    (vd cd e : JVal) (h : submitStart cfg s = (s1, .started vd cd)) :
    submitRun cfg (.rejects e) s = (s1, .raised e) ∧
    s1.isSubmitting = true := by
  constructor
  · unfold submitRun
    rw [h]
  · exact submitStart_started_isSubmitting cfg s s1 vd cd h

/-- Witness for C4: a rejecting handler leaves the concrete form with the
submitting flag still set while the exception is re-raised. -/
theorem submit_reject_leaves_flag_set_witness :
    submitRun
        { validator := none, hasOnSubmit := true, hasOnValidationErrors := false,
          resetOnInitialValuesChange := ResetPolicy.no }
        (.rejects (.vStr "boom")) (initForm (jObj [("a", .vNum 1)]))
      = ({ values := jObj [("a", .vNum 1)], changes := .vObj .nil,
           errors := .vObj .nil, keys := .vObj .nil, touched := .vObj .nil,
           isSubmitting := true, formKey := 0,
           initialValuesCopy := jObj [("a", .vNum 1)] },
         .raised (.vStr "boom")) ∧
    ({ values := jObj [("a", .vNum 1)], changes := .vObj .nil,
       errors := .vObj .nil, keys := .vObj .nil, touched := .vObj .nil,
       isSubmitting := true, formKey := 0,
       initialValuesCopy := jObj [("a", .vNum 1)] } : FormState).isSubmitting
      = true :=
  submit_reject_leaves_flag_set
    { validator := none, hasOnSubmit := true, hasOnValidationErrors := false,
      resetOnInitialValuesChange := ResetPolicy.no }
    (initForm (jObj [("a", .vNum 1)]))
    { values := jObj [("a", .vNum 1)], changes := .vObj .nil,
      errors := .vObj .nil, keys := .vObj .nil, touched := .vObj .nil,
      isSubmitting := true, formKey := 0,
      initialValuesCopy := jObj [("a", .vNum 1)] }
    (jObj [("a", .vNum 1)]) (.vObj .nil) (.vStr "boom") (by decide)
